import Mathlib

/-!
# MPC controller front end (`src/main.cpp`): a shallow embedding

The C++ program receives telemetry over a websocket, fits a cubic to the
waypoints, propagates the vehicle state over the actuation latency, calls
`MPC::Solve` and answers with a steering/throttle message.

Conventions of the embedding

* `double` is an arbitrary field `K`; theorems that need the real functions
  instantiate `K` with `ℝ`.  The libm functions (`cos`, `sin`, `atan`) and the
  constant `M_PI` are arguments of the definitions that call them, so every
  definition stays executable (over `ℚ`, say).
* `Eigen::VectorXd` and `std::vector<double>` are lists.  An unchecked index
  outside the vector (undefined behaviour in C++) is the fault `outOfBounds`;
  a failed `assert` is the fault `assertion`.
* `size_t` arithmetic is arithmetic modulo `2^64`; a `std::string` is the list
  of its characters, and the member functions `find`, `find_first_of`, `rfind`
  and `substr` are written from their meaning in the C++ standard.
* Code that is not in `main.cpp` (Eigen's Householder QR solve, `MPC::Solve`,
  libc's `atoi`/`atof`) is a parameter.  `assert` is taken as compiled in.
-/

namespace MPC

/-! ## `std::string` operations used by `hasData` -/

/-- The value `std::string::npos`, the largest `size_t`. -/
def npos : Nat := 2 ^ 64 - 1

/-- Subtraction of two `size_t` values (wraps around modulo `2^64`). -/
def sizeSub (a b : Nat) : Nat := (a + 2 ^ 64 - b % 2 ^ 64) % 2 ^ 64

/-- Addition of two `size_t` values (wraps around modulo `2^64`). -/
def sizeAdd (a b : Nat) : Nat := (a + b) % 2 ^ 64

/-- Scan for `std::string::find`: `pos` is the index of the head of `s` in the
whole string. -/
def findFrom (pat : List Char) : List Char → Nat → Nat
  | [], pos => if pat.isPrefixOf [] then pos else npos
  | c :: cs, pos => if pat.isPrefixOf (c :: cs) then pos else findFrom pat cs (pos + 1)

/-- The call `s.find(pat)`: the lowest index at which `pat` occurs in `s`, or `npos`. -/
def find (s pat : List Char) : Nat := findFrom pat s 0

/-- Scan for `std::string::find_first_of`. -/
def findFirstOfFrom (chars : List Char) : List Char → Nat → Nat
  | [], _ => npos
  | c :: cs, pos => if chars.contains c then pos else findFirstOfFrom chars cs (pos + 1)

/-- The call `s.find_first_of(chars)`: the lowest index holding one of `chars`, or `npos`. -/
def find_first_of (s chars : List Char) : Nat := findFirstOfFrom chars s 0

/-- Scan for `std::string::rfind`: `last` is the highest match seen so far. -/
def rfindFrom (pat : List Char) : List Char → Nat → Nat → Nat
  | [], pos, last => if pat.isPrefixOf [] then pos else last
  | c :: cs, pos, last =>
    rfindFrom pat cs (pos + 1) (if pat.isPrefixOf (c :: cs) then pos else last)

/-- The call `s.rfind(pat)`: the highest index at which `pat` occurs in `s`, or `npos`. -/
def rfind (s pat : List Char) : Nat := rfindFrom pat s 0 npos

/-- The call `s.substr(pos, count)` for `pos ≤ s.size()`: the characters
`[pos, pos + min(count, size - pos))`. -/
def substr (s : List Char) (pos count : Nat) : List Char := (s.drop pos).take count

/-- Body of `hasData` on the characters of the string (`main.cpp`, lines 47-62). -/
def hasDataChars (s : List Char) : List Char :=
  let found_null := find s "null".data
  let b1 := find_first_of s "[".data
  let b2 := rfind s "\x7d]".data
  if found_null ≠ npos then
    []
  else if b1 ≠ npos ∧ b2 ≠ npos then
    substr s b1 (sizeAdd (sizeSub b2 b1) 2)
  else
    []

/-- The function `hasData` of `main.cpp`. -/
def hasData (s : String) : String := String.mk (hasDataChars s.data)

/-! ## Tuning parameters and startup (`main.cpp`, lines 12-23 and 107-126) -/

/-- The global tuning variables of `main.cpp` (lines 13-23).  `N` is a `size_t`,
the weights are `int`s, the others are `double`s. -/
structure Tuning (K : Type) where
  N : Nat
  dt : K
  Lf : K
  ref_v : K
  cte_wt : Int
  epsi_wt : Int
  v_wt : Int
  delta_wt : Int
  a_wt : Int
  delta_diff_wt : Int
  a_diff_wt : Int
deriving DecidableEq, Repr

/-- The initial values of the globals ("default tuned parameters"). -/
def defaults {K : Type} [Field K] : Tuning K :=
  { N := 10, dt := 0.1, Lf := 2.67, ref_v := 50, cte_wt := 10, epsi_wt := 10, v_wt := 1,
    delta_wt := 1, a_wt := 1, delta_diff_wt := 1, a_diff_wt := 1 }

/-- What can go wrong on a path of the program. -/
inductive Fault where
  /-- an `assert` failed: the process aborts -/
  | assertion
  /-- an unchecked index past the end of a vector, or `argv[i]` past `argc` -/
  | outOfBounds
deriving DecidableEq, Repr

/-- Conversion of an `int` to `size_t` (the assignment `N = atoi(argv[1])`). -/
def toSizeT (i : Int) : Nat := (i % 2 ^ 64).toNat

/-- The entry `argv[i]` handed to `atoi`/`atof`; past the arguments it is no string. -/
def arg (argv : List String) (i : Nat) : Except Fault String :=
  match argv[i]? with
  | some a => .ok a
  | none => .error .outOfBounds

/-- Argument parsing of `main` (lines 111-123): with no argument the globals keep
their initial values, otherwise all ten are overwritten with the parsed
`argv[1]` .. `argv[10]`.  `Lf` is never assigned. -/
def parseArgs {K : Type} [Field K] (atoi : String → Int) (atof : String → K)
    (argv : List String) : Except Fault (Tuning K) :=
  if argv.length > 1 then do
    let a1 ← arg argv 1
    let a2 ← arg argv 2
    let a3 ← arg argv 3
    let a4 ← arg argv 4
    let a5 ← arg argv 5
    let a6 ← arg argv 6
    let a7 ← arg argv 7
    let a8 ← arg argv 8
    let a9 ← arg argv 9
    let a10 ← arg argv 10
    pure { N := toSizeT (atoi a1), dt := atof a2, Lf := defaults.Lf, ref_v := atof a3,
           cte_wt := atoi a4, epsi_wt := atoi a5, v_wt := atoi a6, delta_wt := atoi a7,
           a_wt := atoi a8, delta_diff_wt := atoi a9, a_diff_wt := atoi a10 }
  else
    pure defaults

/-- How `main` goes on after argument parsing. -/
inductive Startup (K : Type) where
  /-- `MPC mpc;` was constructed with the globals `tuning`, the hub listens on the
  port and `h.run()` serves telemetry with them -/
  | running (tuning : Tuning K)
  /-- `MPC mpc;` was constructed with the globals `tuning`, then `h.listen(port)`
  failed and `main` returned `-1` -/
  | listenFailed (tuning : Tuning K)
deriving DecidableEq, Repr

/-- The function `main` up to `h.run()`: parse the arguments, construct the
controller, install the handlers and listen.  `listenOk` is the answer of
`h.listen(4567)`.  There is no other exit between parsing and `h.run()`. -/
def main {K : Type} [Field K] (atoi : String → Int) (atof : String → K) (listenOk : Bool)
    (argv : List String) : Except Fault (Startup K) := do
  let tuning ← parseArgs atoi atof argv
  if listenOk then pure (.running tuning) else pure (.listenFailed tuning)

/-! ### libc number parsing, for concrete runs of `main` -/

/-- The characters `isspace` accepts in the C locale. -/
def isspace (c : Char) : Bool :=
  c = ' ' || c = '\t' || c = '\n' || c = '\x0b' || c = '\x0c' || c = '\r'

/-- Value of the longest prefix of decimal digits, continuing from `acc`. -/
def digitsValue : List Char → Nat → Nat
  | [], acc => acc
  | c :: cs, acc => if c.isDigit then digitsValue cs (10 * acc + (c.toNat - 48)) else acc

/-- Modelled from the C standard library: `atoi` skips white space, reads an
optional sign and the longest run of decimal digits (no digits: `0`).  The
result is taken as is; libc leaves values outside `int` undefined. -/
def atoi (s : String) : Int :=
  match s.data.dropWhile isspace with
  | '-' :: cs => - (digitsValue cs 0 : Int)
  | '+' :: cs => (digitsValue cs 0 : Int)
  | cs => (digitsValue cs 0 : Int)

/-- Digits after the decimal point: value and number of digits read. -/
def fractionValue : List Char → Nat → Nat → Nat × Nat
  | [], acc, n => (acc, n)
  | c :: cs, acc, n =>
    if c.isDigit then fractionValue cs (10 * acc + (c.toNat - 48)) (n + 1) else (acc, n)

/-- The plain decimal literal at the head of `s` (white space, optional sign,
digits, optional `.` and digits) as a pair `(m, e)` standing for `m / 10^e`. -/
def decimalLiteral (s : String) : Int × Nat :=
  let body (cs : List Char) : Nat × Nat :=
    let whole := digitsValue (cs.takeWhile Char.isDigit) 0
    match cs.dropWhile Char.isDigit with
    | '.' :: fs => fractionValue fs whole 0
    | _ => (whole, 0)
  match s.data.dropWhile isspace with
  | '-' :: cs => (- ((body cs).1 : Int), (body cs).2)
  | '+' :: cs => (((body cs).1 : Int), (body cs).2)
  | cs => (((body cs).1 : Int), (body cs).2)

/-- Modelled from the C standard library: `atof` on plain decimal literals, read
exactly; exponents, hexadecimal literals, `inf` and `nan` are not covered. -/
def atofDecimal {K : Type} [Field K] (s : String) : K :=
  ((decimalLiteral s).1 : K) / (10 : K) ^ (decimalLiteral s).2

/-! ## Helpers of `main.cpp` (lines 28-105) -/

/-- The function `deg2rad` (line 34); `pi` is the value of `pi()`, i.e. `M_PI`. -/
def deg2rad {K : Type} [Field K] (pi : K) (x : K) : K := x * pi / 180

/-- The function `rad2deg` (line 39). -/
def rad2deg {K : Type} [Field K] (pi : K) (x : K) : K := x * 180 / pi

/-- The loop of `polyeval`: `coeffs` are the coefficients from index `i` on. -/
def polyevalLoop {K : Type} [Field K] (x : K) : List K → Nat → K → K
  | [], _, result => result
  | c :: cs, i, result => polyevalLoop x cs (i + 1) (result + c * x ^ i)

/-- The function `polyeval` (line 65): `result += coeffs[i] * pow(x, i)` for every
index `i`; `pow(x, 0)` is `1` for every `x`. -/
def polyeval {K : Type} [Field K] (coeffs : List K) (x : K) : K :=
  polyevalLoop x coeffs 0 0

/-- The entries `A(j, i+1) = A(j, i) * xvals(j)` of one row of the matrix built by
`polyfit` (lines 94-100), after the entry `prev`. -/
def rowAfter {K : Type} [Field K] (x : K) : Nat → K → List K
  | 0, _ => []
  | n + 1, prev => (prev * x) :: rowAfter x n (prev * x)

/-- Row `j` of the matrix `A` of `polyfit`: `A(j, 0) = 1.0`, then `order` more entries. -/
def fitRow {K : Type} [Field K] (order : Nat) (x : K) : List K :=
  1 :: rowAfter x order 1

/-- The two assertions of `polyfit` (lines 85-86).  `xvals.size()` is a signed
`Eigen::Index`, so `xvals.size() - 1` is `-1` for an empty vector. -/
def polyfitAsserts (xsize ysize : Nat) (order : Int) : Bool :=
  decide ((xsize : Int) = (ysize : Int)) &&
    decide (order ≥ 1 ∧ order ≤ (xsize : Int) - 1)

/-- The function `polyfit` (line 80).  `qrSolve cols A b` stands for Eigen's
`A.householderQr().solve(b)`, whose result has one entry per column of `A`. -/
def polyfit {K : Type} [Field K]
    (qrSolve : (cols : Nat) → List (List K) → List K → Fin cols → K)
    (xvals yvals : List K) (order : Int) : Except Fault (List K) :=
  if polyfitAsserts xvals.length yvals.length order then
    .ok (List.ofFn (qrSolve (order.toNat + 1) (xvals.map (fitRow order.toNat)) yvals))
  else
    .error .assertion

/-! ## The telemetry handler (`main.cpp`, lines 143-230) -/

/-- The fields of `j[1]` the handler reads (lines 146-153). -/
structure Telemetry (K : Type) where
  ptsx : List K
  ptsy : List K
  x : K
  y : K
  psi : K
  speed : K
  steering_angle : K
  throttle : K
deriving DecidableEq, Repr

/-- What the handler calls and is not in `main.cpp`: libm, Eigen's QR solve and
`MPC::Solve`. -/
structure Extern (K : Type) where
  pi : K
  cos : K → K
  sin : K → K
  atan : K → K
  qrSolve : (cols : Nat) → List (List K) → List K → Fin cols → K
  Solve : List K → List K → List K

/-- Body of the waypoint loop (lines 159-162): the waypoint `(gx, gy)` in the frame
of the vehicle at `(px, py)` with heading `psi`. -/
def localPoint {K : Type} [Field K] (cos sin : K → K) (px py psi gx gy : K) : K × K :=
  let dx := gx - px
  let dy := gy - py
  (dx * cos (-1 * psi) - dy * sin (-1 * psi), dx * sin (-1 * psi) + dy * cos (-1 * psi))

/-- The waypoint loop (lines 155-163): one step per entry of `ptsx`, each reading
`ptsx[i]` and `ptsy[i]`; both results have `ptsx.size()` entries.  Reading
`ptsy[i]` past the end of `ptsy` is the fault `outOfBounds`. -/
def localWaypoints {K : Type} [Field K] (cos sin : K → K) (px py psi : K) :
    List K → List K → Except Fault (List K × List K)
  | [], _ => .ok ([], [])
  | _ :: _, [] => .error .outOfBounds
  | gx :: ptsx, gy :: ptsy =>
    match localWaypoints cos sin px py psi ptsx ptsy with
    | .ok (local_ptsx, local_ptsy) =>
      .ok ((localPoint cos sin px py psi gx gy).1 :: local_ptsx,
           (localPoint cos sin px py psi gx gy).2 :: local_ptsy)
    | .error e => .error e

/-- The state handed to the solver (lines 166-176): `cte`, `epsi` and the vector
`next_state`, from the globals `dt` and `Lf`, the telemetry `v`, `steer`,
`throttle` and the fitted curve. -/
def next_state {K : Type} [Field K] (sin atan : K → K) (g : Tuning K)
    (v steer throttle : K) (fit_curve : List K) : Except Fault (List K) :=
  let cte := polyeval fit_curve 0
  match fit_curve[1]? with
  | none => .error .outOfBounds
  | some c1 =>
    let epsi := -1 * atan c1
    .ok [v * g.dt,
         0,
         -1 * v * steer / g.Lf * g.dt,
         v + throttle * g.dt,
         cte + v * sin epsi * g.dt,
         epsi - v * steer / g.Lf * g.dt]

/-- Everything up to the call `mpc.Solve(next_state, fit_curve)` (lines 155-177):
the two arguments of the call, or the fault that ends the cycle before it. -/
def solveArgs {K : Type} [Field K] (E : Extern K) (g : Tuning K) (t : Telemetry K) :
    Except Fault (List K × List K) :=
  match localWaypoints E.cos E.sin t.x t.y t.psi t.ptsx t.ptsy with
  | .error e => .error e
  | .ok (local_ptsx, local_ptsy) =>
    match polyfit E.qrSolve local_ptsx local_ptsy 3 with
    | .error e => .error e
    | .ok fit_curve =>
      match next_state E.sin E.atan g t.speed t.steering_angle t.throttle fit_curve with
      | .error e => .error e
      | .ok state => .ok (state, fit_curve)

/-- The payload of the `steer` message (lines 179-215). -/
structure SteerMsg (K : Type) where
  steering_angle : K
  throttle : K
  mpc_x : List K
  mpc_y : List K
  next_x : List K
  next_y : List K
deriving DecidableEq, Repr

/-- The loop over the predicted trajectory (lines 190-194) on the entries of
`solution` from index 2 on: `solution[i]` goes to `mpc_x`, `solution[i+1]` to
`mpc_y`; with an odd number of entries the last read is past the end. -/
def mpcPoints {K : Type} : List K → Except Fault (List K × List K)
  | [] => .ok ([], [])
  | [_] => .error .outOfBounds
  | x :: y :: rest =>
    match mpcPoints rest with
    | .ok (xs, ys) => .ok (x :: xs, y :: ys)
    | .error e => .error e

/-- The value stored in `msgJson["steering_angle"]` (line 182). -/
def steerValue {K : Type} [Field K] (pi : K) (g : Tuning K) (solution0 : K) : K :=
  solution0 / (deg2rad pi 25 * g.Lf)

/-- The reference line of the display (lines 207-212): `x_step * i` for `i = 1..19`. -/
def next_x_vals {K : Type} [Field K] : List K :=
  (List.range 19).map (fun i => 2 * ((i + 1 : Nat) : K))

/-- Building the `steer` message from the solver's answer (lines 179-215). -/
def steerMsg {K : Type} [Field K] (pi : K) (g : Tuning K)
    (state fit_curve solution : List K) : Except Fault (SteerMsg K) :=
  match solution[0]?, solution[1]?, state[0]?, state[1]?, mpcPoints (solution.drop 2) with
  | some s0, some s1, some x0, some y0, .ok (xs, ys) =>
    .ok { steering_angle := steerValue pi g s0,
          throttle := s1,
          mpc_x := x0 :: xs,
          mpc_y := y0 :: ys,
          next_x := next_x_vals,
          next_y := next_x_vals.map (polyeval fit_curve) }
  | _, _, _, _, _ => .error .outOfBounds

/-- One telemetry cycle (lines 143-230): the `steer` message sent back, or the
fault that ended the cycle without a message. -/
def onTelemetry {K : Type} [Field K] (E : Extern K) (g : Tuning K) (t : Telemetry K) :
    Except Fault (SteerMsg K) :=
  match solveArgs E g t with
  | .error e => .error e
  | .ok (state, fit_curve) => steerMsg E.pi g state fit_curve (E.Solve state fit_curve)

/-! ## The vehicle model of the specification (section 4.1) -/

/-- The six scalars of a state. -/
structure State (K : Type) where
  x : K
  y : K
  psi : K
  v : K
  cte : K
  epsi : K
deriving DecidableEq, Repr

/-- The entries of a state in the order of the solver's state vector. -/
def State.toList {K : Type} (s : State K) : List K := [s.x, s.y, s.psi, s.v, s.cte, s.epsi]

/-- The discrete update of section 4.1 of the specification, written from its six
equations; `f` is the reference curve and `f'` its derivative. -/
def vehicleModel {K : Type} [Field K] (cos sin atan : K → K) (Lf dt : K)
    (f f' : K → K) (s : State K) (delta a : K) : State K :=
  { x := s.x + s.v * cos s.psi * dt,
    y := s.y + s.v * sin s.psi * dt,
    psi := s.psi + (s.v / Lf) * delta * dt,
    v := s.v + a * dt,
    cte := (f s.x - s.y) + s.v * sin s.epsi * dt,
    epsi := (s.psi - atan (f' s.x)) + (s.v / Lf) * delta * dt }

/-- The loop of the derivative of a polynomial given by its coefficients: the
term of index `i` contributes `i * coeffs[i] * x^(i-1)`. -/
def polyderivLoop {K : Type} [Field K] (x : K) : List K → Nat → K → K
  | [], _, result => result
  | c :: cs, i, result => polyderivLoop x cs (i + 1) (result + (i : K) * c * x ^ (i - 1))

/-- The derivative `f'` of the reference curve `f = polyeval coeffs`. -/
def polyderiv {K : Type} [Field K] (coeffs : List K) (x : K) : K :=
  polyderivLoop x coeffs 0 0

/-- The vehicle-local state of a cycle before latency compensation: the vehicle
at the origin with heading `0` and speed `v`, `cte = f(0)`, `epsi = -atan(f'(0))`. -/
def localState {K : Type} [Field K] (atan : K → K) (v : K) (fit_curve : List K) : State K :=
  { x := 0, y := 0, psi := 0, v := v,
    cte := polyeval fit_curve 0, epsi := - atan (polyderiv fit_curve 0) }

/-- The waypoint whose coordinates in the frame of the pose `(px, py, psi)` are
`(lx, ly)`: the rigid motion of the pose applied to the local point. -/
def globalPoint {K : Type} [Field K] (cos sin : K → K) (px py psi lx ly : K) : K × K :=
  (px + lx * cos psi - ly * sin psi, py + lx * sin psi + ly * cos psi)

/-! ## Supporting lemmas -/

theorem polyeval_cubic_zero {K : Type} [Field K] (c0 c1 c2 c3 : K) :
    polyeval [c0, c1, c2, c3] 0 = c0 := by
  simp [polyeval, polyevalLoop]

theorem polyderiv_cubic_zero {K : Type} [Field K] (c0 c1 c2 c3 : K) :
    polyderiv [c0, c1, c2, c3] 0 = c1 := by
  simp [polyderiv, polyderivLoop]

theorem next_state_cubic {K : Type} [Field K] (sin atan : K → K) (g : Tuning K)
    (v steer throttle c0 c1 c2 c3 : K) :
    next_state sin atan g v steer throttle [c0, c1, c2, c3] =
      .ok [v * g.dt, 0, -1 * v * steer / g.Lf * g.dt, v + throttle * g.dt,
           c0 + v * sin (-1 * atan c1) * g.dt, -1 * atan c1 - v * steer / g.Lf * g.dt] := by
  simp [next_state, polyeval_cubic_zero]

theorem vehicleModel_local_neg_steer (g : Tuning ℝ) (v s t c0 c1 c2 c3 : ℝ) :
    next_state Real.sin Real.arctan g v s t [c0, c1, c2, c3] =
      .ok (vehicleModel Real.cos Real.sin Real.arctan g.Lf g.dt
            (polyeval [c0, c1, c2, c3]) (polyderiv [c0, c1, c2, c3])
            (localState Real.arctan v [c0, c1, c2, c3]) (-s) t).toList := by
  rw [next_state_cubic]
  simp only [vehicleModel, localState, State.toList, polyeval_cubic_zero,
    polyderiv_cubic_zero, Real.cos_zero, Real.sin_zero]
  refine congrArg Except.ok ?_
  have e1 : v * g.dt = 0 + v * 1 * g.dt := by ring
  have e2 : (0 : ℝ) = 0 + v * 0 * g.dt := by ring
  have e3 : -1 * v * s / g.Lf * g.dt = 0 + v / g.Lf * -s * g.dt := by ring
  have e4 : c0 + v * Real.sin (-1 * Real.arctan c1) * g.dt
      = c0 - 0 + v * Real.sin (-Real.arctan c1) * g.dt := by
    rw [neg_one_mul]; ring
  have e5 : -1 * Real.arctan c1 - v * s / g.Lf * g.dt
      = 0 - Real.arctan c1 + v / g.Lf * -s * g.dt := by ring
  rw [← e1, ← e2, ← e3, ← e4, ← e5]

theorem localPoint_globalPoint (px py psi lx ly : ℝ) :
    localPoint Real.cos Real.sin px py psi
        (globalPoint Real.cos Real.sin px py psi lx ly).1
        (globalPoint Real.cos Real.sin px py psi lx ly).2 = (lx, ly) := by
  simp only [localPoint, globalPoint, neg_one_mul, Real.cos_neg, Real.sin_neg, Prod.mk.injEq]
  constructor
  · linear_combination lx * Real.cos_sq_add_sin_sq psi
  · linear_combination ly * Real.cos_sq_add_sin_sq psi

theorem localWaypoints_globalPoints (px py psi : ℝ) (pts : List (ℝ × ℝ)) :
    localWaypoints Real.cos Real.sin px py psi
        (pts.map fun p => (globalPoint Real.cos Real.sin px py psi p.1 p.2).1)
        (pts.map fun p => (globalPoint Real.cos Real.sin px py psi p.1 p.2).2) =
      .ok (pts.map Prod.fst, pts.map Prod.snd) := by
  induction pts with
  | nil => rfl
  | cons p pts ih =>
    simp only [List.map_cons, localWaypoints, ih, localPoint_globalPoint]

theorem polyfitAsserts_cubic (n m : Nat) :
    polyfitAsserts n m 3 = true ↔ n = m ∧ 4 ≤ n := by
  simp only [polyfitAsserts, Bool.and_eq_true, decide_eq_true_eq]
  omega

theorem polyfit_cubic {K : Type} [Field K]
    (qrSolve : (cols : Nat) → List (List K) → List K → Fin cols → K) (xs ys : List K) :
    polyfit qrSolve xs ys 3 =
      if polyfitAsserts xs.length ys.length 3 then
        .ok [qrSolve 4 (xs.map (fitRow 3)) ys 0, qrSolve 4 (xs.map (fitRow 3)) ys 1,
             qrSolve 4 (xs.map (fitRow 3)) ys 2, qrSolve 4 (xs.map (fitRow 3)) ys 3]
      else .error .assertion := by
  unfold polyfit
  have h3 : (3 : Int).toNat = 3 := rfl
  rw [h3]
  split
  · simp only [List.ofFn_succ, List.ofFn_zero]
    rfl
  · rfl

theorem localWaypoints_take {K : Type} [Field K] (cos sin : K → K) (px py psi : K)
    (ptsx ptsy : List K) :
    localWaypoints cos sin px py psi ptsx (ptsy.take ptsx.length) =
      localWaypoints cos sin px py psi ptsx ptsy := by
  induction ptsx generalizing ptsy with
  | nil => simp [localWaypoints]
  | cons gx ptsx ih =>
    cases ptsy with
    | nil => simp [localWaypoints]
    | cons gy ptsy => simp only [List.length_cons, List.take_succ_cons, localWaypoints, ih]

theorem localWaypoints_ok {K : Type} [Field K] (cos sin : K → K) (px py psi : K)
    (ptsx ptsy : List K) (h : ptsx.length ≤ ptsy.length) :
    ∃ lx ly, localWaypoints cos sin px py psi ptsx ptsy = .ok (lx, ly) ∧
      lx.length = ptsx.length ∧ ly.length = ptsx.length := by
  induction ptsx generalizing ptsy with
  | nil => exact ⟨[], [], rfl, rfl, rfl⟩
  | cons gx ptsx ih =>
    cases ptsy with
    | nil => simp at h
    | cons gy ptsy =>
      obtain ⟨lx, ly, hl, hx, hy⟩ := ih ptsy (by simpa using h)
      exact ⟨(localPoint cos sin px py psi gx gy).1 :: lx,
        (localPoint cos sin px py psi gx gy).2 :: ly,
        by simp only [localWaypoints, hl], by simp [hx], by simp [hy]⟩

theorem solveArgs_few {K : Type} [Field K] (E : Extern K) (g : Tuning K) (t : Telemetry K)
    (h : t.ptsx.length ≤ t.ptsy.length) (h4 : t.ptsx.length < 4) :
    solveArgs E g t = .error .assertion := by
  obtain ⟨lx, ly, hl, hx, hy⟩ := localWaypoints_ok E.cos E.sin t.x t.y t.psi t.ptsx t.ptsy h
  have ha : polyfitAsserts lx.length ly.length 3 = false := by
    rw [Bool.eq_false_iff, Ne, polyfitAsserts_cubic]
    omega
  simp [solveArgs, hl, polyfit_cubic, ha]

theorem solveArgs_enough {K : Type} [Field K] (E : Extern K) (g : Tuning K) (t : Telemetry K)
    (h : t.ptsx.length ≤ t.ptsy.length) (h4 : 4 ≤ t.ptsx.length) :
    ∃ lx ly fit_curve state,
      localWaypoints E.cos E.sin t.x t.y t.psi t.ptsx t.ptsy = .ok (lx, ly) ∧
      polyfit E.qrSolve lx ly 3 = .ok fit_curve ∧
      next_state E.sin E.atan g t.speed t.steering_angle t.throttle fit_curve = .ok state ∧
      solveArgs E g t = .ok (state, fit_curve) := by
  obtain ⟨lx, ly, hl, hx, hy⟩ := localWaypoints_ok E.cos E.sin t.x t.y t.psi t.ptsx t.ptsy h
  have ha : polyfitAsserts lx.length ly.length 3 = true := by
    rw [polyfitAsserts_cubic]
    omega
  have hp : polyfit E.qrSolve lx ly 3 =
      .ok [E.qrSolve 4 (lx.map (fitRow 3)) ly 0, E.qrSolve 4 (lx.map (fitRow 3)) ly 1,
           E.qrSolve 4 (lx.map (fitRow 3)) ly 2, E.qrSolve 4 (lx.map (fitRow 3)) ly 3] := by
    rw [polyfit_cubic, ha]; rfl
  refine ⟨lx, ly, _, _, hl, hp, next_state_cubic _ _ _ _ _ _ _ _ _ _, ?_⟩
  simp only [solveArgs, hl, hp, next_state_cubic]

theorem solveArgs_ok_inv {K : Type} [Field K] (E : Extern K) (g : Tuning K)
    (t : Telemetry K) (state fit_curve : List K)
    (h : solveArgs E g t = .ok (state, fit_curve)) :
    ∃ c0 c1 c2 c3, fit_curve = [c0, c1, c2, c3] ∧
      next_state E.sin E.atan g t.speed t.steering_angle t.throttle [c0, c1, c2, c3] =
        .ok state := by
  unfold solveArgs at h
  cases hw : localWaypoints E.cos E.sin t.x t.y t.psi t.ptsx t.ptsy with
  | error e => simp only [hw] at h; cases h
  | ok p =>
    obtain ⟨xs, ys⟩ := p
    simp only [hw, polyfit_cubic] at h
    by_cases ha : polyfitAsserts xs.length ys.length 3 = true
    · simp only [ha, if_true, next_state_cubic] at h
      cases h
      exact ⟨_, _, _, _, rfl, next_state_cubic _ _ _ _ _ _ _ _ _ _⟩
    · simp only [ha] at h
      cases h

theorem steerMsg_steering_angle {K : Type} [Field K] (pi : K) (g : Tuning K)
    (state fit_curve rest : List K) (delta : K) (m : SteerMsg K)
    (h : steerMsg pi g state fit_curve (delta :: rest) = .ok m) :
    m.steering_angle = steerValue pi g delta := by
  unfold steerMsg at h
  simp only [List.getElem?_cons_zero] at h
  split at h
  · rename_i s0 s1 x0 y0 xs ys h0 _ _ _ _
    cases h0
    cases h
    rfl
  · cases h

theorem main_eleven_args {K : Type} [Field K] (atoi : String → Int)
    (atof : String → K) (listenOk : Bool) (a0 a1 a2 a3 a4 a5 a6 a7 a8 a9 a10 : String) :
    main atoi atof listenOk [a0, a1, a2, a3, a4, a5, a6, a7, a8, a9, a10] =
      .ok ((if listenOk then Startup.running else Startup.listenFailed)
          { N := toSizeT (atoi a1), dt := atof a2, Lf := 2.67, ref_v := atof a3,
            cte_wt := atoi a4, epsi_wt := atoi a5, v_wt := atoi a6, delta_wt := atoi a7,
            a_wt := atoi a8, delta_diff_wt := atoi a9, a_diff_wt := atoi a10 }) := by
  cases listenOk <;> rfl

theorem main_no_args {K : Type} [Field K] (atoi : String → Int) (atof : String → K)
    (listenOk : Bool) (a0 : String) :
    main atoi atof listenOk [a0] =
      .ok ((if listenOk then Startup.running else Startup.listenFailed) defaults) := by
  cases listenOk <;> rfl

theorem atoi_examples :
    atoi "1" = 1 ∧ atoi "10" = 10 ∧ atoi "-10" = -10 ∧ atoi "0" = 0 ∧ atoi "25" = 25 := by
  decide

theorem decimalLiteral_examples :
    decimalLiteral "0.1" = (1, 1) ∧ decimalLiteral "50" = (50, 0) ∧
      decimalLiteral "0" = (0, 0) ∧ decimalLiteral "0.05" = (5, 2) ∧
      decimalLiteral "40" = (40, 0) := by
  decide

/-! ## The claims -/

/-! ### Steering command (line 182)
-/

/-- C1 (the code at the failing input): for every raw steering value the command
written to the message is `delta / deg2rad(25)` divided once more by `Lf = 2.67`;
at `delta = deg2rad(25)` the command is `100/267`, not `delta / deg2rad(25) = 1`. -/
theorem steerValue_divides_by_Lf :
    (∀ delta : ℝ,
        steerValue Real.pi (defaults : Tuning ℝ) delta = delta / deg2rad Real.pi 25 / 2.67) ∧
      steerValue Real.pi (defaults : Tuning ℝ) (deg2rad Real.pi 25) = 100 / 267 ∧
      deg2rad Real.pi 25 / deg2rad Real.pi 25 = 1 ∧
      (∀ (state fit_curve rest : List ℝ) (delta : ℝ) (m : SteerMsg ℝ),
        steerMsg Real.pi defaults state fit_curve (delta :: rest) = .ok m →
          m.steering_angle = delta / deg2rad Real.pi 25 / 2.67) := by
  have hd : deg2rad Real.pi 25 ≠ 0 := by
    unfold deg2rad
    positivity
  have hall : ∀ delta : ℝ,
      steerValue Real.pi (defaults : Tuning ℝ) delta = delta / deg2rad Real.pi 25 / 2.67 := by
    intro delta
    simp only [steerValue, defaults]
    rw [div_div]
  refine ⟨hall, ?_, div_self hd, ?_⟩
  · rw [hall, div_self hd]
    norm_num
  · intro state fit_curve rest delta m h
    rw [← hall]
    exact steerMsg_steering_angle Real.pi defaults state fit_curve rest delta m h

/-! ### Latency compensation against the vehicle model
-/

/-- C2 (as amended): the state handed to `MPC::Solve` is the section 4.1 vehicle
model update over one timestep `dt` of the vehicle-local state
`(0, 0, 0, v, f(0), -atan(f'(0)))` with actuation `delta = -s` (the telemetry
steering angle negated) and `a = t`, i.e.
`(v*dt, 0, -(v/Lf)*s*dt, v + t*dt, c0 + v*sin(epsi)*dt, epsi - (v/Lf)*s*dt)` with
`epsi = -atan(c1)`.  This holds for the vector `next_state` of every cubic, and
for the arguments of every call of the solver made by the handler. -/
theorem next_state_is_vehicleModel_neg_steer (g : Tuning ℝ) :
    (∀ v s t c0 c1 c2 c3 : ℝ,
        next_state Real.sin Real.arctan g v s t [c0, c1, c2, c3] =
            .ok (vehicleModel Real.cos Real.sin Real.arctan g.Lf g.dt
                  (polyeval [c0, c1, c2, c3]) (polyderiv [c0, c1, c2, c3])
                  (localState Real.arctan v [c0, c1, c2, c3]) (-s) t).toList ∧
          next_state Real.sin Real.arctan g v s t [c0, c1, c2, c3] =
            .ok [v * g.dt, 0, -(v / g.Lf) * s * g.dt, v + t * g.dt,
                 c0 + v * Real.sin (-Real.arctan c1) * g.dt,
                 -Real.arctan c1 - (v / g.Lf) * s * g.dt]) ∧
      (∀ (qrSolve : (cols : Nat) → List (List ℝ) → List ℝ → Fin cols → ℝ)
          (Solve : List ℝ → List ℝ → List ℝ) (tel : Telemetry ℝ)
          (state fit_curve : List ℝ),
        solveArgs ⟨Real.pi, Real.cos, Real.sin, Real.arctan, qrSolve, Solve⟩ g tel =
            .ok (state, fit_curve) →
          state = (vehicleModel Real.cos Real.sin Real.arctan g.Lf g.dt
                    (polyeval fit_curve) (polyderiv fit_curve)
                    (localState Real.arctan tel.speed fit_curve)
                    (-tel.steering_angle) tel.throttle).toList) := by
  constructor
  · intro v s t c0 c1 c2 c3
    refine ⟨vehicleModel_local_neg_steer g v s t c0 c1 c2 c3, ?_⟩
    rw [next_state_cubic]
    refine congrArg Except.ok ?_
    have e3 : -1 * v * s / g.Lf * g.dt = -(v / g.Lf) * s * g.dt := by ring
    have e5 : -1 * Real.arctan c1 - v * s / g.Lf * g.dt
        = -Real.arctan c1 - v / g.Lf * s * g.dt := by ring
    rw [e3, e5, neg_one_mul]
  · intro qrSolve Solve tel state fit_curve h
    obtain ⟨c0, c1, c2, c3, hfit, hst⟩ := solveArgs_ok_inv _ g tel state fit_curve h
    subst hfit
    have h2 := vehicleModel_local_neg_steer g tel.speed tel.steering_angle tel.throttle
      c0 c1 c2 c3
    simp only [] at hst
    rw [h2] at hst
    cases hst
    rfl

/-- C2 (witness): a cycle with four paired waypoints on the x axis, speed `10`,
steering angle `1` and throttle `1` under the default tuning; the fit is taken to
return `[0, 0, 0, 0]`.  The solver is called, with the vehicle model update for
`delta = -1` as its state. -/
theorem next_state_is_vehicleModel_neg_steer_witness :
    solveArgs
        ⟨Real.pi, Real.cos, Real.sin, Real.arctan, fun _ _ _ _ => 0, fun _ _ => [0, 0]⟩
        (defaults : Tuning ℝ) ⟨[0, 1, 2, 3], [0, 0, 0, 0], 0, 0, 0, 10, 1, 1⟩ =
      .ok ([1, 0, -(100 / 267), 10.1, 0, -(100 / 267)], [0, 0, 0, 0]) ∧
    ([1, 0, -(100 / 267), 10.1, 0, -(100 / 267)] : List ℝ) =
      (vehicleModel Real.cos Real.sin Real.arctan (defaults : Tuning ℝ).Lf
        (defaults : Tuning ℝ).dt (polyeval [0, 0, 0, 0]) (polyderiv [0, 0, 0, 0])
        (localState Real.arctan 10 [0, 0, 0, 0]) (-1) 1).toList := by
  have hw : localWaypoints Real.cos Real.sin (0 : ℝ) 0 0 [0, 1, 2, 3] [0, 0, 0, 0] =
      .ok ([0, 1, 2, 3], [0, 0, 0, 0]) := by
    simp [localWaypoints, localPoint]
  have ha : polyfitAsserts 4 4 3 = true := by decide
  have hs : solveArgs
      ⟨Real.pi, Real.cos, Real.sin, Real.arctan, fun _ _ _ _ => 0, fun _ _ => [0, 0]⟩
      (defaults : Tuning ℝ) ⟨[0, 1, 2, 3], [0, 0, 0, 0], 0, 0, 0, 10, 1, 1⟩ =
        .ok ([1, 0, -(100 / 267), 10.1, 0, -(100 / 267)], [0, 0, 0, 0]) := by
    simp only [solveArgs, hw, polyfit_cubic, List.length_cons, List.length_nil, ha, if_true,
      next_state_cubic, defaults]
    norm_num
  exact ⟨hs, (next_state_is_vehicleModel_neg_steer (defaults : Tuning ℝ)).2 _ _ _ _ _ hs⟩

/-- C2 (counterexample): with the default `dt = 0.1`, `Lf = 2.67`, speed `1`,
steering angle `1`, throttle `0` and the zero curve the state handed to the solver
is not the vehicle model update with `delta = s`: the heading entries have
opposite signs. -/
theorem next_state_not_vehicleModel_steer :
    next_state Real.sin Real.arctan (defaults : Tuning ℝ) 1 1 0 [0, 0, 0, 0] ≠
      .ok (vehicleModel Real.cos Real.sin Real.arctan (defaults : Tuning ℝ).Lf
            (defaults : Tuning ℝ).dt (polyeval [0, 0, 0, 0]) (polyderiv [0, 0, 0, 0])
            (localState Real.arctan 1 [0, 0, 0, 0]) 1 0).toList := by
  rw [next_state_cubic]
  simp only [vehicleModel, localState, State.toList, polyeval_cubic_zero,
    polyderiv_cubic_zero, defaults]
  intro h
  have h3 := congrArg (fun r => match r with
    | Except.ok l => l.getD 2 0
    | Except.error _ => (0 : ℝ)) h
  simp at h3
  norm_num at h3

/-! ### Stationary vehicle
-/

/-- C3 (as amended): for a stationary vehicle (`v = 0`; any steering angle,
throttle, `dt` and reference cubic) the latency-compensated state is
`(0, 0, 0, throttle * dt, cte, epsi)`: every entry but the speed is the one of the
uncompensated vehicle-local state, and the speed entry is `throttle * dt`; so the
state is unchanged exactly when `throttle * dt = 0`. -/
theorem next_state_stationary (g : Tuning ℝ) (s t c0 c1 c2 c3 : ℝ) :
    next_state Real.sin Real.arctan g 0 s t [c0, c1, c2, c3] =
        .ok [0, 0, 0, t * g.dt, polyeval [c0, c1, c2, c3] 0, -1 * Real.arctan c1] ∧
      (next_state Real.sin Real.arctan g 0 s t [c0, c1, c2, c3] =
          .ok (localState Real.arctan 0 [c0, c1, c2, c3]).toList ↔ t * g.dt = 0) := by
  have h : next_state Real.sin Real.arctan g 0 s t [c0, c1, c2, c3] =
      .ok [0, 0, 0, t * g.dt, polyeval [c0, c1, c2, c3] 0, -1 * Real.arctan c1] := by
    rw [next_state_cubic, polyeval_cubic_zero]
    refine congrArg Except.ok ?_
    simp
  refine ⟨h, ?_⟩
  rw [h]
  simp [localState, State.toList, polyderiv_cubic_zero]

/-- C3 (counterexample): a stationary vehicle (`v = 0`) with throttle `1` and the
default `dt = 0.1 > 0` on the zero curve: the compensated state is not the
uncompensated state `(0, 0, 0, 0, cte, epsi)`, its speed entry is `0.1`. -/
theorem next_state_stationary_throttle_moves :
    next_state Real.sin Real.arctan (defaults : Tuning ℝ) 0 0 1 [0, 0, 0, 0] =
        .ok [0, 0, 0, 0.1, 0, 0] ∧
      next_state Real.sin Real.arctan (defaults : Tuning ℝ) 0 0 1 [0, 0, 0, 0] ≠
        .ok (localState Real.arctan 0 [0, 0, 0, 0]).toList := by
  have h : next_state Real.sin Real.arctan (defaults : Tuning ℝ) 0 0 1 [0, 0, 0, 0] =
      .ok [0, 0, 0, 0.1, 0, 0] := by
    rw [next_state_cubic]
    refine congrArg Except.ok ?_
    simp [defaults]
  refine ⟨h, ?_⟩
  rw [h]
  simp [localState, State.toList, polyderiv_cubic_zero, polyeval_cubic_zero]
  norm_num

/-! ### Range of the steering command
-/

/-- C4: with `Lf = 2.67`, for every raw steering value `delta` within
`[-deg2rad(25), deg2rad(25)]` the steering command `delta / (deg2rad(25) * Lf)`
lies in `[-1, 1]`, and it is the `steering_angle` of every message built from a
solution whose first entry is `delta`. -/
theorem steering_command_in_unit_interval (g : Tuning ℝ) (hLf : g.Lf = 2.67) (delta : ℝ)
    (hlo : -deg2rad Real.pi 25 ≤ delta) (hhi : delta ≤ deg2rad Real.pi 25) :
    (-1 ≤ steerValue Real.pi g delta ∧ steerValue Real.pi g delta ≤ 1) ∧
      ∀ (state fit_curve rest : List ℝ) (m : SteerMsg ℝ),
        steerMsg Real.pi g state fit_curve (delta :: rest) = .ok m →
          -1 ≤ m.steering_angle ∧ m.steering_angle ≤ 1 := by
  have hd : 0 < deg2rad Real.pi 25 := by
    unfold deg2rad
    positivity
  have hden : 0 < deg2rad Real.pi 25 * g.Lf := by
    rw [hLf]
    positivity
  have hle : deg2rad Real.pi 25 ≤ deg2rad Real.pi 25 * g.Lf := by
    rw [hLf]
    nlinarith
  have hb : -1 ≤ steerValue Real.pi g delta ∧ steerValue Real.pi g delta ≤ 1 := by
    unfold steerValue
    constructor
    · rw [le_div_iff₀ hden]
      linarith
    · rw [div_le_one hden]
      linarith
  refine ⟨hb, ?_⟩
  intro state fit_curve rest m hm
  rw [steerMsg_steering_angle Real.pi g state fit_curve rest delta m hm]
  exact hb

/-- C4 (witness): the default tuning at the upper bound `delta = deg2rad(25)`, where
a message is built from the solution `[deg2rad(25), 0]`. -/
theorem steering_command_in_unit_interval_witness :
    (defaults : Tuning ℝ).Lf = 2.67 ∧
      -deg2rad Real.pi 25 ≤ deg2rad Real.pi 25 ∧
      deg2rad Real.pi 25 ≤ deg2rad Real.pi 25 ∧
      (-1 ≤ steerValue Real.pi (defaults : Tuning ℝ) (deg2rad Real.pi 25) ∧
        steerValue Real.pi (defaults : Tuning ℝ) (deg2rad Real.pi 25) ≤ 1) ∧
      ∃ m : SteerMsg ℝ,
        steerMsg Real.pi defaults [1, 0, 0, 10, 0, 0] [0, 0, 0, 0] [deg2rad Real.pi 25, 0] =
          .ok m ∧ -1 ≤ m.steering_angle ∧ m.steering_angle ≤ 1 := by
  have hd : 0 ≤ deg2rad Real.pi 25 := by
    unfold deg2rad
    positivity
  have h := steering_command_in_unit_interval (defaults : Tuning ℝ) rfl (deg2rad Real.pi 25)
    (by linarith) le_rfl
  refine ⟨rfl, by linarith, le_rfl, h.1, ?_⟩
  refine ⟨_, rfl, h.2 [1, 0, 0, 10, 0, 0] [0, 0, 0, 0] [0] _ rfl⟩

/-! ### Startup arguments
-/

/-- C5 (as amended): `main` performs no range check on the tuning parameters.  For
every list of ten startup arguments, whatever `atoi` and `atof` make of them, the
globals are overwritten with the parsed values (`N` converted to `size_t`, `Lf`
untouched), the controller is constructed and, when the port can be opened, the
program runs with them; the only startup failure is a failed `listen`, and it
does not depend on the values.  Without arguments the initial values are used. -/
theorem main_accepts_every_tuning {K : Type} [Field K] (atoi : String → Int)
    (atof : String → K) (a0 a1 a2 a3 a4 a5 a6 a7 a8 a9 a10 : String) :
    main atoi atof true [a0, a1, a2, a3, a4, a5, a6, a7, a8, a9, a10] =
        .ok (.running
          { N := toSizeT (atoi a1), dt := atof a2, Lf := 2.67, ref_v := atof a3,
            cte_wt := atoi a4, epsi_wt := atoi a5, v_wt := atoi a6, delta_wt := atoi a7,
            a_wt := atoi a8, delta_diff_wt := atoi a9, a_diff_wt := atoi a10 }) ∧
      main atoi atof false [a0, a1, a2, a3, a4, a5, a6, a7, a8, a9, a10] =
        .ok (.listenFailed
          { N := toSizeT (atoi a1), dt := atof a2, Lf := 2.67, ref_v := atof a3,
            cte_wt := atoi a4, epsi_wt := atoi a5, v_wt := atoi a6, delta_wt := atoi a7,
            a_wt := atoi a8, delta_diff_wt := atoi a9, a_diff_wt := atoi a10 }) ∧
      main atoi atof true [a0] = .ok (.running defaults) := by
  exact ⟨main_eleven_args atoi atof true a0 a1 a2 a3 a4 a5 a6 a7 a8 a9 a10,
    main_eleven_args atoi atof false a0 a1 a2 a3 a4 a5 a6 a7 a8 a9 a10,
    main_no_args atoi atof true a0⟩

/-- C5 (counterexample): three startups with out-of-range values, each reaching
`h.run()` with them: horizon `N = 1`, timestep `dt = 0`, and weight
`cte_wt = -10`. -/
theorem main_runs_out_of_range_tuning :
    (main atoi atofDecimal true
        ["mpc", "1", "0.1", "50", "10", "10", "1", "1", "1", "1", "1"] :
          Except Fault (Startup ℝ)) =
        .ok (.running { (defaults : Tuning ℝ) with N := 1 }) ∧
      (main atoi atofDecimal true
        ["mpc", "10", "0", "50", "10", "10", "1", "1", "1", "1", "1"] :
          Except Fault (Startup ℝ)) =
        .ok (.running { (defaults : Tuning ℝ) with dt := 0 }) ∧
      (main atoi atofDecimal true
        ["mpc", "10", "0.1", "50", "-10", "10", "1", "1", "1", "1", "1"] :
          Except Fault (Startup ℝ)) =
        .ok (.running { (defaults : Tuning ℝ) with cte_wt := -10 }) := by
  obtain ⟨h1, h10, hm10, -, -⟩ := atoi_examples
  obtain ⟨d1, d50, d0, -, -⟩ := decimalLiteral_examples
  refine ⟨?_, ?_, ?_⟩
  · rw [main_eleven_args]
    simp only [atofDecimal, h1, h10, d1, d50, defaults, toSizeT, if_true]
    norm_num
  · rw [main_eleven_args]
    simp only [atofDecimal, h1, h10, d0, d50, defaults, toSizeT, if_true]
    norm_num
    rfl
  · rw [main_eleven_args]
    simp only [atofDecimal, h1, h10, hm10, d1, d50, defaults, toSizeT, if_true]
    norm_num
    rfl

/-! ### Waypoint arrays of different lengths
-/

/-- C6 (as amended): the handler never compares the two waypoint arrays; it reads
the first `ptsx.size()` entries of `ptsy` and nothing else of it.  For every
record whose `ptsy` is longer than its `ptsx`, the cycle goes exactly as for the
record with `ptsy` cut to the length of `ptsx`; it ends in the failed assertion
of `polyfit` exactly when `ptsx` has fewer than 4 entries, and with 4 or more the
solver is invoked. -/
theorem onTelemetry_ignores_extra_ptsy {K : Type} [Field K] (E : Extern K) (g : Tuning K)
    (t : Telemetry K) (h : t.ptsx.length < t.ptsy.length) :
    onTelemetry E g t = onTelemetry E g { t with ptsy := t.ptsy.take t.ptsx.length } ∧
      (solveArgs E g t = .error .assertion ↔ t.ptsx.length < 4) ∧
      (4 ≤ t.ptsx.length → ∃ state fit_curve, solveArgs E g t = .ok (state, fit_curve)) := by
  refine ⟨?_, ⟨?_, ?_⟩, ?_⟩
  · simp only [onTelemetry, solveArgs, localWaypoints_take]
  · intro hs
    by_contra h4
    obtain ⟨lx, ly, fit_curve, state, -, -, -, hok⟩ :=
      solveArgs_enough E g t (Nat.le_of_lt h) (Nat.le_of_not_lt h4)
    rw [hok] at hs
    cases hs
  · exact solveArgs_few E g t (Nat.le_of_lt h)
  · intro h4
    obtain ⟨lx, ly, fit_curve, state, -, -, -, hok⟩ :=
      solveArgs_enough E g t (Nat.le_of_lt h) h4
    exact ⟨state, fit_curve, hok⟩

/-- C6 (witness): five x-coordinates and seven y-coordinates. -/
theorem onTelemetry_ignores_extra_ptsy_witness :
    ([0, 1, 2, 3, 4] : List ℝ).length < ([0, 0, 0, 0, 0, 9, 9] : List ℝ).length ∧
      ∃ state fit_curve,
        solveArgs
          ⟨Real.pi, Real.cos, Real.sin, Real.arctan, fun _ _ _ _ => 0, fun _ _ => [0, 0]⟩
          (defaults : Tuning ℝ)
          ⟨[0, 1, 2, 3, 4], [0, 0, 0, 0, 0, 9, 9], 0, 0, 0, 10, 0, 0⟩ =
            .ok (state, fit_curve) :=
  ⟨by decide,
    (onTelemetry_ignores_extra_ptsy
      ⟨Real.pi, Real.cos, Real.sin, Real.arctan, fun _ _ _ _ => 0, fun _ _ => [0, 0]⟩
      (defaults : Tuning ℝ)
      ⟨[0, 1, 2, 3, 4], [0, 0, 0, 0, 0, 9, 9], 0, 0, 0, 10, 0, 0⟩ (by decide)).2.2
      (by decide)⟩

/-- C6 (counterexample): a record with 4 x-coordinates and 5 y-coordinates
(waypoints on the x axis, vehicle at the origin with heading `0` and speed `10`).
With the coefficients `[0, 0, 0, 0]` for the fit of the first four pairs and a
solver answering `[0, 0]`, the solver is invoked with the state
`(1, 0, 0, 10, 0, 0)` and a `steer` message is produced. -/
theorem onTelemetry_accepts_longer_ptsy :
    ([0, 1, 2, 3] : List ℝ).length ≠ ([0, 0, 0, 0, 5] : List ℝ).length ∧
      solveArgs
          ⟨Real.pi, Real.cos, Real.sin, Real.arctan, fun _ _ _ _ => 0, fun _ _ => [0, 0]⟩
          (defaults : Tuning ℝ)
          ⟨[0, 1, 2, 3], [0, 0, 0, 0, 5], 0, 0, 0, 10, 0, 0⟩ =
        .ok ([1, 0, 0, 10, 0, 0], [0, 0, 0, 0]) ∧
      onTelemetry
          ⟨Real.pi, Real.cos, Real.sin, Real.arctan, fun _ _ _ _ => 0, fun _ _ => [0, 0]⟩
          (defaults : Tuning ℝ)
          ⟨[0, 1, 2, 3], [0, 0, 0, 0, 5], 0, 0, 0, 10, 0, 0⟩ =
        .ok { steering_angle := 0, throttle := 0, mpc_x := [1], mpc_y := [0],
              next_x := next_x_vals, next_y := next_x_vals.map (polyeval [0, 0, 0, 0]) } := by
  have hw : localWaypoints Real.cos Real.sin (0 : ℝ) 0 0 [0, 1, 2, 3] [0, 0, 0, 0, 5] =
      .ok ([0, 1, 2, 3], [0, 0, 0, 0]) := by
    simp [localWaypoints, localPoint]
  have ha : polyfitAsserts 4 4 3 = true := by decide
  have hs : solveArgs
      ⟨Real.pi, Real.cos, Real.sin, Real.arctan, fun _ _ _ _ => 0, fun _ _ => [0, 0]⟩
      (defaults : Tuning ℝ)
      ⟨[0, 1, 2, 3], [0, 0, 0, 0, 5], 0, 0, 0, 10, 0, 0⟩ =
        .ok ([1, 0, 0, 10, 0, 0], [0, 0, 0, 0]) := by
    simp only [solveArgs, hw, polyfit_cubic, List.length_cons, List.length_nil, ha, if_true,
      next_state_cubic, defaults]
    norm_num
  refine ⟨by decide, hs, ?_⟩
  simp only [onTelemetry, hs]
  simp [steerMsg, mpcPoints, steerValue]

/-! ### Too few waypoints
-/

/-- C7: for every telemetry record whose reads of `ptsy` are in bounds (in
particular every record with paired arrays): with fewer than 4 waypoints the call
`polyfit(xs, ys, 3)` fails its assertion `order <= xs.size() - 1`, the cycle ends
there, `MPC::Solve` is not invoked and no message is built; with at least 4
waypoints the assertions of `polyfit` pass and it returns the fitted
coefficients. -/
theorem few_waypoints_rejected_before_solving {K : Type} [Field K] (E : Extern K)
    (g : Tuning K) (t : Telemetry K) (h : t.ptsx.length ≤ t.ptsy.length) :
    (t.ptsx.length < 4 →
        (∃ xs ys, localWaypoints E.cos E.sin t.x t.y t.psi t.ptsx t.ptsy = .ok (xs, ys) ∧
          ¬ ((3 : Int) ≤ (xs.length : Int) - 1) ∧
          polyfit E.qrSolve xs ys 3 = .error .assertion) ∧
        solveArgs E g t = .error .assertion ∧
        onTelemetry E g t = .error .assertion) ∧
      (4 ≤ t.ptsx.length →
        ∃ xs ys fit_curve,
          localWaypoints E.cos E.sin t.x t.y t.psi t.ptsx t.ptsy = .ok (xs, ys) ∧
          (3 : Int) ≤ (xs.length : Int) - 1 ∧
          polyfitAsserts xs.length ys.length 3 = true ∧
          polyfit E.qrSolve xs ys 3 = .ok fit_curve) := by
  constructor
  · intro h4
    obtain ⟨xs, ys, hl, hx, hy⟩ := localWaypoints_ok E.cos E.sin t.x t.y t.psi t.ptsx t.ptsy h
    have ha : polyfitAsserts xs.length ys.length 3 = false := by
      rw [Bool.eq_false_iff, Ne, polyfitAsserts_cubic]
      omega
    have hs := solveArgs_few E g t h h4
    refine ⟨⟨xs, ys, hl, by omega, ?_⟩, hs, ?_⟩
    · simp [polyfit_cubic, ha]
    · simp only [onTelemetry, hs]
  · intro h4
    obtain ⟨xs, ys, fit_curve, state, hl, hp, -, -⟩ := solveArgs_enough E g t h h4
    obtain ⟨xs', ys', hl', hx, hy⟩ :=
      localWaypoints_ok E.cos E.sin t.x t.y t.psi t.ptsx t.ptsy h
    rw [hl] at hl'
    cases hl'
    refine ⟨xs, ys, fit_curve, hl, by omega, ?_, hp⟩
    rw [polyfitAsserts_cubic]
    omega

/-- C7 (witness): three paired waypoints are rejected by the assertion of
`polyfit`. -/
theorem few_waypoints_rejected_before_solving_witness :
    ([0, 1, 2] : List ℝ).length ≤ ([0, 1, 4] : List ℝ).length ∧
      solveArgs
          ⟨Real.pi, Real.cos, Real.sin, Real.arctan, fun _ _ _ _ => 0, fun _ _ => [0, 0]⟩
          (defaults : Tuning ℝ) ⟨[0, 1, 2], [0, 1, 4], 0, 0, 0, 10, 0, 0⟩ =
        .error .assertion ∧
      onTelemetry
          ⟨Real.pi, Real.cos, Real.sin, Real.arctan, fun _ _ _ _ => 0, fun _ _ => [0, 0]⟩
          (defaults : Tuning ℝ) ⟨[0, 1, 2], [0, 1, 4], 0, 0, 0, 10, 0, 0⟩ =
        .error .assertion :=
  ⟨by decide,
    ((few_waypoints_rejected_before_solving
      ⟨Real.pi, Real.cos, Real.sin, Real.arctan, fun _ _ _ _ => 0, fun _ _ => [0, 0]⟩
      (defaults : Tuning ℝ) ⟨[0, 1, 2], [0, 1, 4], 0, 0, 0, 10, 0, 0⟩ (by decide)).1
        (by decide)).2⟩

/-! ### Latency duration and `dt`
-/

/-- C8 (as amended): the duration of the forward propagation is the
startup-supplied timestep `dt`.  Two tuning configurations with the same `Lf`
that agree on `dt` give the same latency-compensated state, whatever their other
parameters; and for a moving vehicle (`v ≠ 0`) they give the same state only if
they agree on `dt`. -/
theorem next_state_depends_on_dt (g1 g2 : Tuning ℝ) (hLf : g1.Lf = g2.Lf)
    (v s t c0 c1 c2 c3 : ℝ) :
    (g1.dt = g2.dt →
        next_state Real.sin Real.arctan g1 v s t [c0, c1, c2, c3] =
          next_state Real.sin Real.arctan g2 v s t [c0, c1, c2, c3]) ∧
      (v ≠ 0 →
        next_state Real.sin Real.arctan g1 v s t [c0, c1, c2, c3] =
          next_state Real.sin Real.arctan g2 v s t [c0, c1, c2, c3] →
        g1.dt = g2.dt) := by
  constructor
  · intro hdt
    rw [next_state_cubic, next_state_cubic, hdt, hLf]
  · intro hv h
    rw [next_state_cubic, next_state_cubic] at h
    have h0 := congrArg (fun r => match r with
      | Except.ok l => l.getD 0 0
      | Except.error _ => (0 : ℝ)) h
    simp only [List.getD_cons_zero] at h0
    exact mul_left_cancel₀ hv h0

/-- C8 (witness): the default configuration and one with another horizon, target
speed and weights but the same `dt` and `Lf`, at speed `10`. -/
theorem next_state_depends_on_dt_witness :
    (defaults : Tuning ℝ).Lf =
        ({ (defaults : Tuning ℝ) with N := 20, ref_v := 30, cte_wt := 7 }).Lf ∧
      next_state Real.sin Real.arctan (defaults : Tuning ℝ) 10 0 1 [0, 0, 0, 0] =
        next_state Real.sin Real.arctan
          ({ (defaults : Tuning ℝ) with N := 20, ref_v := 30, cte_wt := 7 }) 10 0 1
          [0, 0, 0, 0] :=
  ⟨rfl, (next_state_depends_on_dt defaults
    { (defaults : Tuning ℝ) with N := 20, ref_v := 30, cte_wt := 7 } rfl 10 0 1 0 0 0 0).1 rfl⟩

/-- C8 (counterexample): two configurations that differ only in `dt` (`0.1` and
`0.2`), the same telemetry (speed `1`, no steering, no throttle) and the same
curve: the states handed to the solver differ (`x = 0.1` against `x = 0.2`). -/
theorem next_state_changes_with_dt :
    next_state Real.sin Real.arctan (defaults : Tuning ℝ) 1 0 0 [0, 0, 0, 0] =
        .ok [0.1, 0, 0, 1, 0, 0] ∧
      next_state Real.sin Real.arctan ({ (defaults : Tuning ℝ) with dt := 0.2 }) 1 0 0
          [0, 0, 0, 0] = .ok [0.2, 0, 0, 1, 0, 0] ∧
      next_state Real.sin Real.arctan (defaults : Tuning ℝ) 1 0 0 [0, 0, 0, 0] ≠
        next_state Real.sin Real.arctan ({ (defaults : Tuning ℝ) with dt := 0.2 }) 1 0 0
          [0, 0, 0, 0] := by
  have h1 : next_state Real.sin Real.arctan (defaults : Tuning ℝ) 1 0 0 [0, 0, 0, 0] =
      .ok [0.1, 0, 0, 1, 0, 0] := by
    rw [next_state_cubic]
    refine congrArg Except.ok ?_
    simp [defaults]
  have h2 : next_state Real.sin Real.arctan ({ (defaults : Tuning ℝ) with dt := 0.2 }) 1 0 0
      [0, 0, 0, 0] = .ok [0.2, 0, 0, 1, 0, 0] := by
    rw [next_state_cubic]
    refine congrArg Except.ok ?_
    simp [defaults]
  refine ⟨h1, h2, ?_⟩
  rw [h1, h2]
  intro h
  have h0 := congrArg (fun r => match r with
    | Except.ok l => l.getD 0 0
    | Except.error _ => (0 : ℝ)) h
  simp only [List.getD_cons_zero] at h0
  norm_num at h0

/-! ### `hasData`
-/

/-- C9 (the code at the failing input): in `42}]x[` the last `}]` (index 2) stands
before the first `[` (index 5); the length `b2 - b1 + 2` wraps around to
`2^64 - 1` and `hasData` returns `[`, which is not empty and does not end with
`}]`. -/
theorem hasData_close_before_open :
    find "42\x7d]x[".data "null".data = npos ∧
      find_first_of "42\x7d]x[".data "[".data = 5 ∧
      rfind "42\x7d]x[".data "\x7d]".data = 2 ∧
      sizeAdd (sizeSub 2 5) 2 = 2 ^ 64 - 1 ∧
      hasData "42\x7d]x[" = "[" := by
  decide

/-! ### Waypoint transform
-/

/-- C10: the waypoint transform is the exact inverse of the vehicle's rigid pose.
For every pose `(px, py, psi)`: the global waypoint
`(px + lx*cos psi - ly*sin psi, py + lx*sin psi + ly*cos psi)` is mapped to
`(lx, ly)`, by the loop body and by the whole loop on any list of such waypoints;
the vehicle's own position is mapped to `(0, 0)`; the point at distance `d`
straight ahead is mapped to `(d, 0)`; and the squared distance from the vehicle is
preserved. -/
theorem localPoint_inverse_of_pose (px py psi : ℝ) :
    (∀ lx ly : ℝ,
        localPoint Real.cos Real.sin px py psi
          (px + lx * Real.cos psi - ly * Real.sin psi)
          (py + lx * Real.sin psi + ly * Real.cos psi) = (lx, ly)) ∧
      (∀ pts : List (ℝ × ℝ),
        localWaypoints Real.cos Real.sin px py psi
            (pts.map fun p => (globalPoint Real.cos Real.sin px py psi p.1 p.2).1)
            (pts.map fun p => (globalPoint Real.cos Real.sin px py psi p.1 p.2).2) =
          .ok (pts.map Prod.fst, pts.map Prod.snd)) ∧
      localPoint Real.cos Real.sin px py psi px py = (0, 0) ∧
      (∀ d : ℝ,
        localPoint Real.cos Real.sin px py psi (px + d * Real.cos psi) (py + d * Real.sin psi) =
          (d, 0)) ∧
      (∀ gx gy : ℝ,
        (localPoint Real.cos Real.sin px py psi gx gy).1 ^ 2 +
            (localPoint Real.cos Real.sin px py psi gx gy).2 ^ 2 =
          (gx - px) ^ 2 + (gy - py) ^ 2) := by
  refine ⟨fun lx ly => localPoint_globalPoint px py psi lx ly,
    localWaypoints_globalPoints px py psi, ?_, ?_, ?_⟩
  · simp [localPoint]
  · intro d
    simp only [localPoint, neg_one_mul, Real.cos_neg, Real.sin_neg, Prod.mk.injEq]
    constructor
    · linear_combination d * Real.cos_sq_add_sin_sq psi
    · ring
  · intro gx gy
    simp only [localPoint, neg_one_mul, Real.cos_neg, Real.sin_neg]
    linear_combination ((gx - px) ^ 2 + (gy - py) ^ 2) * Real.cos_sq_add_sin_sq psi

end MPC
